import Mathlib

set_option maxRecDepth 40000

/-!
Shallow embedding of the readaloud reader core (src/js/reader.js, src/js/storage.js
and the API client): the deterministic chunk cutter, the page-text extraction retry
loop, the chapter-transition cache handling, the playback page-advance logic, and
the reading-position reconciliation and persistence paths.  JavaScript strings are
modelled as `List Char`, JS `Map`s as association lists, and the external
collaborators (rendering engine, network) as oracle parameters.
-/

namespace ReadAloud

/-- The JS whitespace class `\s` (ASCII part), as used by `replace(/\s+/g, ' ')`,
`trim()` and the sentence-splitting regex in reader.js. -/
def isJsWs (c : Char) : Bool :=
  c == ' ' || c == '\t' || c == '\n' || c == '\r' || c == '\x0b' || c == '\x0c'

/-- Terminal punctuation recognised by the sentence-splitting regex
`/(?<=[.!?])\s+/` of reader.js. -/
def isTermPunct (c : Char) : Bool :=
  c == '.' || c == '!' || c == '?'

/-- Scanner for `replace(/\s+/g, ' ')`: each maximal whitespace run collapses to a
single space.  The flag records whether the previous character was part of a run. -/
def collapseGo : Bool → List Char → List Char
  | _, [] => []
  | prevWs, c :: cs =>
    if isJsWs c then
      if prevWs then collapseGo true cs else ' ' :: collapseGo true cs
    else c :: collapseGo false cs

/-- JS `String.prototype.trim()` on char lists. -/
def trimList (l : List Char) : List Char :=
  ((l.dropWhile isJsWs).reverse.dropWhile isJsWs).reverse

/-- `text.replace(/\s+/g, ' ').trim()` — the whitespace normalisation applied to
chapter text (reader.js line 1780) and to extracted text nodes (line 1597). -/
def normalizeWs (l : List Char) : List Char :=
  trimList (collapseGo false l)

/-- Scanner for `text.split(/(?<=[.!?])\s+/)`: split at each maximal whitespace
run directly preceded by terminal punctuation, the run being consumed.  First
flag: currently consuming a matched whitespace run; second flag: previous
character was terminal punctuation; `acc` is the current part, reversed. -/
def sentGo : Bool → Bool → List Char → List Char → List (List Char)
  | _, _, acc, [] => [acc.reverse]
  | skipping, prevP, acc, c :: cs =>
    if skipping then
      if isJsWs c then sentGo true false acc cs
      else sentGo false (isTermPunct c) (c :: acc) cs
    else
      if prevP && isJsWs c then acc.reverse :: sentGo true false [] cs
      else sentGo false (isTermPunct c) (c :: acc) cs

/-- The sentence split used by both cutters (reader.js lines 1630 and 1787). -/
def splitSentences (l : List Char) : List (List Char) :=
  sentGo false false [] l

/-- The greedy sentence-packing loop shared by the page-level cutter
(reader.js lines 1631–1654) and the chapter-level cutter (lines 1788–1807):
`sents` are the remaining sentences, `chunks` the chunks emitted so far and
`cur` the running buffer (`currentChunk`).  A buffer is flushed when appending
the next sentence would exceed `MAX_CHUNK_SIZE` (300), and only kept if it
reaches `MIN_CHUNK_SIZE` (5); the final buffer is flushed under the same
minimum-size guard. -/
def packChunks : List (List Char) → List (List Char) → List Char → List (List Char)
  | [], chunks, cur => if 5 ≤ cur.length then chunks ++ [cur] else chunks
  | s :: rest, chunks, cur =>
    let t := trimList s
    if t.isEmpty then packChunks rest chunks cur
    else if 0 < cur.length ∧ 300 < cur.length + t.length + 1 then
      packChunks rest (if 5 ≤ cur.length then chunks ++ [cur] else chunks) t
    else if cur.isEmpty then packChunks rest chunks t
    else packChunks rest chunks (cur ++ ' ' :: t)

/-- The chapter-level chunk cutter of `loadChapterChunks` (reader.js lines
1780–1807): normalise the chapter text, split into sentences, greedily pack. -/
def chunkChapterText (raw : List Char) : List (List Char) :=
  packChunks (splitSentences (normalizeWs raw)) [] []

/-- The page-level cutter applied to one extracted text node (reader.js lines
1620–1656): a unit of length at most `MAX_CHUNK_SIZE` is one chunk; larger
units go through sentence packing.  Inputs are already whitespace-normalised
by the text-node walk (line 1597). -/
def cutUnit (nodeText : List Char) : List (List Char) :=
  if nodeText.length ≤ 300 then [nodeText]
  else packChunks (splitSentences nodeText) [] []

/-! ### Reading positions and session-start reconciliation -/

/-- `position.type` in storage.js / reader.js: `'epub'` or `'pdf'`. -/
inductive BookType
  | epub
  | pdf
deriving DecidableEq, Repr

/-- A reading-position record as stored locally and remotely
(storage.js 243–249, reader.js 3041–3075): an EPUB position carries a CFI,
a PDF position a paragraph index; `lastRead` is the last-modified timestamp
stamped by `saveReadingPosition`. -/
structure Position where
  btype : BookType
  cfi : Option String
  paragraphIndex : Option Nat
  lastRead : Option Nat
deriving DecidableEq, Repr

/-- The divergence test of `getInitialPosition` (reader.js 2981–2987): EPUB
positions differ when their CFIs differ, PDF positions when their paragraph
indices differ; absent fields default to `''` / `0`. -/
def positionsDiffer (l r : Position) : Bool :=
  (l.btype == BookType.epub && l.cfi.getD "" != r.cfi.getD "") ||
  (l.btype == BookType.pdf && l.paragraphIndex.getD 0 != r.paragraphIndex.getD 0)

/-- Result of session-start reconciliation: the position the session proceeds
with, and the contents of the two stores afterwards. -/
structure ReconcileResult where
  chosen : Option Position
  localStore : Option Position
  remoteStore : Option Position
deriving DecidableEq, Repr

/-- `getInitialPosition` (reader.js 2944–3039).  `localPos` is the local store
entry for the book, `remoteStore` the remote store entry; `fetched` is true when
the client is authenticated and the remote fetch succeeded (otherwise the
backend position stays `null`, reader.js 2956–2964).  When both sources exist
and differ, the user is prompted (`confirm`, line 3008): `userChoosesBackend`
is their answer.  Choosing the backend copies it into local storage (3013–3015);
choosing local pushes the local position to the backend when authenticated,
`remoteSaveOk` telling whether that write succeeded (3020–3035, failures are
caught and logged). -/
def getInitialPosition (localPos remoteStore : Option Position)
    (fetched : Bool) (userChoosesBackend : Bool) (remoteSaveOk : Bool) :
    ReconcileResult :=
  let backendPosition := if fetched then remoteStore else none
  match localPos, backendPosition with
  | none, none => ⟨none, localPos, remoteStore⟩
  | some l, none => ⟨some l, localPos, remoteStore⟩
  | none, some r => ⟨some r, localPos, remoteStore⟩
  | some l, some r =>
    if positionsDiffer l r = false then ⟨some l, localPos, remoteStore⟩
    else if userChoosesBackend then ⟨some r, some r, remoteStore⟩
    else ⟨some l, localPos, if fetched && remoteSaveOk then some l else remoteStore⟩

/-! ### Position persistence (storage.js `saveReadingPosition`, api `savePosition`) -/

/-- Outcome of the remote position write as seen by the client. -/
inductive RemoteSaveOutcome
  | ok
  | httpError
  | networkThrow
deriving DecidableEq, Repr

/-- What became of the remote sync attempt: every failure is caught and only
logged (storage.js 276–278; the API client itself also swallows errors,
api 396–420), so no outcome escapes as an exception. -/
inductive RemotePhase
  | synced
  | failedLogged
  | skipped
deriving DecidableEq, Repr

/-- JS object assignment `positions[bookId] = p` on the JSON map of reading
positions (storage.js 244–249). -/
def setPosition (store : List (String × Position)) (bookId : String) (p : Position) :
    List (String × Position) :=
  (bookId, p) :: store.filter (fun e => e.1 ≠ bookId)

/-- The remote half of `saveReadingPosition` (storage.js 252–279): attempted
only when authenticated and the book has a backend id; any failure is logged
and swallowed. -/
def remoteSyncPhase (authed : Bool) (backendId : Option String)
    (remote : RemoteSaveOutcome) : RemotePhase :=
  if authed then
    match backendId with
    | some _ =>
      match remote with
      | .ok => .synced
      | .httpError => .failedLogged
      | .networkThrow => .failedLogged
    | none => .skipped
  else .skipped

/-- `saveReadingPosition` (storage.js 243–280): the position is written to the
local store unconditionally, stamped with the current time as `lastRead`;
afterwards the remote sync is attempted and its failures swallowed.  The
function is total: no outcome raises. -/
def saveReadingPosition (store : List (String × Position)) (bookId : String)
    (position : Position) (now : Nat) (authed : Bool) (backendId : Option String)
    (remote : RemoteSaveOutcome) : List (String × Position) × RemotePhase :=
  (setPosition store bookId { position with lastRead := some now },
   remoteSyncPhase authed backendId remote)

/-! ### Remote position fetch (api client `getPosition`) -/

/-- Outcome of the `fetch` to `/api/positions/{bookId}`: the request can reject,
or return a response with an `ok` flag and a body that parses to a position or
fails to parse (`json()` throwing). -/
inductive FetchOutcome
  | netError
  | resp (ok : Bool) (json : Option Position)
deriving DecidableEq, Repr

/-- `ttsApi.getPosition` (api client lines 367–391): offline → `null`,
unauthenticated → `null`, non-OK response → `null`, rejected request or
unparsable body → caught and `null`; only an OK response with a parsed body
yields a position. -/
def apiGetPosition (isOnline authed : Bool) (f : FetchOutcome) : Option Position :=
  if !isOnline then none
  else if !authed then none
  else
    match f with
    | .netError => none
    | .resp false _ => none
    | .resp true none => none
    | .resp true (some p) => some p

/-! ### Page-text extraction: the bounded range-resolution retry loop -/

/-- A resolved visible range: `visible` is `range.toString()`, `nodes` the raw
text nodes collected from `range.cloneContents()`. -/
structure PageRange where
  visible : List Char
  nodes : List (List Char)
deriving DecidableEq, Repr

/-- What one retry iteration of the loop at reader.js 1525–1552 observes:
the freshly re-queried location can be unusable, `getRange` can resolve to
`null`, succeed, or throw (the throw lands in the catch at line 1739). -/
inductive RangeAttempt
  | noLocation
  | rangeNull
  | found (rg : PageRange)
  | threw
deriving DecidableEq, Repr

/-- The 100 ms pause between retry attempts (reader.js 1532 and 1550). -/
def extractRetryDelayMs : Nat := 100

/-- The retry loop of `extractCurrentPageText` (reader.js 1518–1552):
`attempts` counts iterations so far, `fuel` the iterations remaining out of
`MAX_ATTEMPTS = 10`.  Each attempt re-queries the current location fresh
(`oracle` is indexed by the attempt number); a failed attempt sleeps once for
`extractRetryDelayMs`.  Returns the resolved range (or `none` after all
retries), the final attempt count, and the number of sleeps; a thrown
`getRange` propagates as `.error`. -/
def rangeRetryGo (oracle : Nat → RangeAttempt) :
    Nat → Nat → Except Unit (Option PageRange × Nat × Nat)
  | 0, attempts => .ok (none, attempts, 0)
  | fuel + 1, attempts =>
    match oracle (attempts + 1) with
    | .noLocation =>
      match rangeRetryGo oracle fuel (attempts + 1) with
      | .ok (r, n, s) => .ok (r, n, s + 1)
      | .error e => .error e
    | .rangeNull =>
      match rangeRetryGo oracle fuel (attempts + 1) with
      | .ok (r, n, s) => .ok (r, n, s + 1)
      | .error e => .error e
    | .found rg => .ok (some rg, attempts + 1, 0)
    | .threw => .error ()

/-- The whole retry loop, started with zero attempts and `MAX_ATTEMPTS = 10`. -/
def rangeRetryLoop (oracle : Nat → RangeAttempt) :
    Except Unit (Option PageRange × Nat × Nat) :=
  rangeRetryGo oracle 10 0

/-- The text-node walk of reader.js 1592–1613: each text node is
whitespace-normalised and kept only when its normalised length reaches
`MIN_CHUNK_SIZE` (5). -/
def collectTextNodes (rawNodes : List (List Char)) : List (List Char) :=
  (rawNodes.map normalizeWs).filter (fun t => 5 ≤ t.length)

/-- The page-level chunk list (reader.js 1616–1656): every collected text node
is cut by `cutUnit` and the results concatenated into `paragraphData`. -/
def pageChunks (textNodes : List (List Char)) : List (List Char) :=
  textNodes.flatMap cutUnit

/-- The paragraphs `extractCurrentPageText` ends up with: `[]` when the range
never resolved (reader.js 1563), when `getRange` threw (1741/1750), or when
the resolved range stringifies to nothing (1579); otherwise the page chunks.
Every path yields a value — extraction reports emptiness, it never raises. -/
def extractParagraphs (oracle : Nat → RangeAttempt) : List (List Char) :=
  match rangeRetryLoop oracle with
  | .error _ => []
  | .ok (none, _, _) => []
  | .ok (some rg, _, _) =>
    if rg.visible.length = 0 then []
    else pageChunks (collectTextNodes rg.nodes)

/-! ### Chapter transitions inside extraction -/

/-- The chapter-scoped part of the reader state touched by
`extractCurrentPageText`: the active chapter, the chunk-audio cache
(`chunkAudioCache : Map chunkIndex → audioUrl`), the canonical chapter chunk
sequence and the playing chunk index. -/
structure ChapterState where
  currentChapterIndex : Option Nat
  chunkAudioCache : List (Nat × String)
  chapterChunks : List (List Char)
  currentChapterChunkIndex : Int
deriving DecidableEq, Repr

/-- The chapter bookkeeping of a successful extraction: on entry, moving to a
different chapter clears the audio cache and the chapter chunks
(reader.js 1497–1510); after the page text is in hand, a changed chapter gets
its canonical chunk sequence rebuilt and becomes current (1669–1673).
`loaded` is the `loadChapterChunks` result for the new chapter. -/
def chapterTransition (st : ChapterState) (newIdx : Nat) (loaded : List (List Char)) :
    ChapterState :=
  let st1 :=
    if st.currentChapterIndex ≠ none ∧ st.currentChapterIndex ≠ some newIdx then
      { st with chunkAudioCache := [], chapterChunks := [], currentChapterChunkIndex := -1 }
    else st
  if st1.currentChapterIndex ≠ some newIdx then
    { st1 with chapterChunks := loaded, currentChapterIndex := some newIdx }
  else st1

/-! ### The extraction completion signal -/

/-- Exit paths of `extractCurrentPageText`; every one of them calls the
resolver of the promise installed at entry (reader.js 1481, 1489, 1565, 1581,
1736, 1744, 1753). -/
inductive ExtOutcome
  | notReady
  | noLocation
  | rangeUnresolved
  | emptyRange
  | success
  | innerError
  | outerError
deriving DecidableEq, Repr

/-- The `textExtractionPromise` as observed by waiters: `gen` is the identity
of the current promise object (a fresh object per extraction call), `resolved`
whether that promise has been resolved. -/
structure ExtractionSignal where
  gen : Nat
  resolved : Bool
deriving DecidableEq, Repr

/-- One run of `extractCurrentPageText` as seen through the completion signal:
a new promise replaces the previous one at entry (reader.js 1473–1476), and
whichever exit path is taken resolves it before returning. -/
def extractionSignalRun (s : ExtractionSignal) (o : ExtOutcome) : ExtractionSignal :=
  let fresh : ExtractionSignal := { gen := s.gen + 1, resolved := false }
  match o with
  | .notReady => { fresh with resolved := true }
  | .noLocation => { fresh with resolved := true }
  | .rangeUnresolved => { fresh with resolved := true }
  | .emptyRange => { fresh with resolved := true }
  | .success => { fresh with resolved := true }
  | .innerError => { fresh with resolved := true }
  | .outerError => { fresh with resolved := true }

/-- The waiter of `nextParagraph` (reader.js 2592–2602): it captured the
promise identity before the page turn, polls until a different promise object
has replaced it, then awaits that promise. -/
def waiterProceeds (captured : Nat) (s : ExtractionSignal) : Prop :=
  s.gen ≠ captured ∧ s.resolved = true

/-! ### Playback page advancement (`nextParagraph`, reader.js 2550–2643) -/

/-- What one `rendition.next()` page turn leads to: whether the engine reported
movement, the location reported after the turn, and the paragraphs the
re-extraction produced. -/
structure PageTurn where
  moved : Bool
  loc : Nat
  paras : List (List Char)
deriving DecidableEq, Repr

/-- The playback fields `nextParagraph` reads and writes: the visible page
paragraphs, the current paragraph index, the consecutive page-advance failure
counter, and the reported location. -/
structure PlaybackState where
  paragraphs : List (List Char)
  paraIndex : Nat
  failures : Nat
  location : Nat
deriving DecidableEq, Repr

/-- What a `nextParagraph` call ends in while playing an EPUB. -/
inductive NPAction
  | speakNext (text : List Char)
  | speakNewPage (text : List Char)
  | pausedTooManyFailures
  | pausedEndOfBook
  | pausedCannotAdvance
  | pausedBlankPage
  | outOfFuel
deriving DecidableEq, Repr

/-- `nextParagraph` while playing an EPUB (reader.js 2550–2643).  `env` gives
the outcome of the k-th `rendition.next()` call of the session, `calls` how
many such calls happened already.  Within the page, the next paragraph is
spoken and the failure counter reset (2551–2558).  At the end of the page:
a failure counter at 10 or above pauses immediately (2566–2572); an
unmoved engine pauses with end-of-book (2581–2587); after the page turn and
re-extraction, an unchanged location bumps the counter and either re-enters
`nextParagraph` (2611–2613) or pauses with a cannot-advance error (2615–2617);
a changed location resets the counter and speaks the first new paragraph, or
pauses on a blank page (2622–2637).  The recursion depth is at most 3, so
`fuel = 4` makes `.outOfFuel` unreachable. -/
def npGo (env : Nat → PageTurn) : Nat → Nat → PlaybackState → NPAction × PlaybackState × Nat
  | 0, calls, st => (.outOfFuel, st, calls)
  | fuel + 1, calls, st =>
    if st.paraIndex + 1 < st.paragraphs.length then
      (.speakNext (st.paragraphs.getD (st.paraIndex + 1) []),
       { st with paraIndex := st.paraIndex + 1, failures := 0 }, calls)
    else if 10 ≤ st.failures then
      (.pausedTooManyFailures, { st with failures := 0 }, calls)
    else
      let o := env calls
      if o.moved = false then
        (.pausedEndOfBook, { st with failures := 0 }, calls + 1)
      else
        let st1 := { st with paraIndex := 0, paragraphs := o.paras }
        if o.loc = st.location then
          if st.failures + 1 < 3 then
            npGo env fuel (calls + 1) { st1 with failures := st.failures + 1 }
          else
            (.pausedCannotAdvance, { st1 with failures := 0 }, calls + 1)
        else
          let st2 := { st1 with location := o.loc, failures := 0 }
          match o.paras with
          | [] => (.pausedBlankPage, st2, calls + 1)
          | p :: _ => (.speakNewPage p, st2, calls + 1)

/-- One `nextParagraph` invocation (recursion included). -/
def nextParagraphCall (env : Nat → PageTurn) (calls : Nat) (st : PlaybackState) :
    NPAction × PlaybackState × Nat :=
  npGo env 4 calls st

/-- The narration loop: each spoken chunk ends in the audio `ended` handler
calling `nextParagraph` again; narration only settles when a call pauses.
`fuel` bounds the number of observed invocations; `none` means narration was
still going after that many. -/
def narrationRun (env : Nat → PageTurn) :
    Nat → Nat → PlaybackState → Option NPAction × PlaybackState × Nat
  | 0, calls, st => (none, st, calls)
  | fuel + 1, calls, st =>
    match nextParagraphCall env calls st with
    | (.speakNext _, st1, calls1) => narrationRun env fuel calls1 st1
    | (.speakNewPage _, st1, calls1) => narrationRun env fuel calls1 st1
    | (a, st1, calls1) => (some a, st1, calls1)

/-! ### Concrete scenarios used by counterexamples and witnesses -/

/-- A local position more recently modified than `remoteOlder`, but pointing at
a different CFI. -/
def localNewer : Position :=
  ⟨BookType.epub, some "epubcfi(/6/4!/4/2)", none, some 100⟩

/-- A remote position older than `localNewer` and differing from it. -/
def remoteOlder : Position :=
  ⟨BookType.epub, some "epubcfi(/6/8!/4/2)", none, some 50⟩

/-- A single 1000-character sentence: no terminal punctuation followed by
whitespace occurs before its end. -/
def longSentence : List Char :=
  List.replicate 999 'a' ++ ['.']

/-- A rendering engine stuck in place: every `next()` reports movement but the
location stays 0, and re-extraction of the unchanged page always yields the
same two five-character paragraphs. -/
def envStuckTwoParas : Nat → PageTurn :=
  fun _ => ⟨true, 0, [['a', 'a', 'a', 'a', 'a'], ['b', 'b', 'b', 'b', 'b']]⟩

/-- Playback sitting on the last paragraph of that two-paragraph page, with no
recorded failures, at location 0. -/
def stStuckTwoParas : PlaybackState :=
  ⟨[['a', 'a', 'a', 'a', 'a'], ['b', 'b', 'b', 'b', 'b']], 1, 0, 0⟩

/-! ## Theorems -/

/-- C2: the chapter-level chunk cutter is deterministic: two calls of the
text-to-chunk-list function on the same text yield identical chunk lists —
the same list, hence the same number of chunks, the same chunk texts and the
same boundaries.  `chunkChapterText` is a pure function of the chapter text:
the embedding of `loadChapterChunks`' cutting step (reader.js 1780–1807)
consumes nothing but its input. -/
theorem chunk_cutter_deterministic (t1 t2 : List Char) (h : t1 = t2) :
    chunkChapterText t1 = chunkChapterText t2 ∧
    (chunkChapterText t1).length = (chunkChapterText t2).length ∧
    ∀ i : Nat, (chunkChapterText t1).getD i [] = (chunkChapterText t2).getD i [] := by
  subst h
  exact ⟨rfl, rfl, fun _ => rfl⟩

/-- Witness for C2 at the concrete text `"One. Two. Three."`. -/
theorem chunk_cutter_deterministic_witness :
    chunkChapterText ("One. Two. Three.".toList) =
      chunkChapterText ("One. Two. Three.".toList) ∧
    (chunkChapterText ("One. Two. Three.".toList)).length =
      (chunkChapterText ("One. Two. Three.".toList)).length ∧
    ∀ i : Nat,
      (chunkChapterText ("One. Two. Three.".toList)).getD i [] =
        (chunkChapterText ("One. Two. Three.".toList)).getD i [] :=
  chunk_cutter_deterministic ("One. Two. Three.".toList) ("One. Two. Three.".toList) rfl

/-- C6: a text unit whose (normalised) length is at most `MAX_CHUNK_SIZE`
(300) is returned by the page-level cutter as exactly one chunk equal to the
unit — in particular `"One. Two. Three."` stays one chunk — and the concrete
1000-character single sentence `longSentence`, having no terminal punctuation
followed by whitespace before its end, is returned as exactly one oversized
chunk: sentence splitting cannot subdivide a single sentence. -/
theorem small_unit_single_chunk_and_oversized_sentence :
    (∀ u : List Char, u.length ≤ 300 → cutUnit u = [u]) ∧
    (cutUnit longSentence = [longSentence] ∧
      longSentence.length = 1000 ∧ 300 < longSentence.length) := by
  constructor
  · intro u h
    unfold cutUnit
    rw [if_pos h]
  · refine ⟨?_, by decide, by decide⟩
    decide

/-- Witness for C6: the short-unit half applied to `"One. Two. Three."`. -/
theorem small_unit_single_chunk_witness :
    cutUnit ("One. Two. Three.".toList) = [("One. Two. Three.".toList)] :=
  small_unit_single_chunk_and_oversized_sentence.1 ("One. Two. Three.".toList) (by decide)

/-- C7: when a successful extraction resolves a location whose chapter index
differs from the current one, the chapter-scoped audio cache is cleared and
the chapter chunk sequence is rebuilt (set to the freshly loaded canonical
chunks) with the new chapter becoming current; when the chapter index is
unchanged, the whole chapter state — audio cache and chunk sequence included —
is left untouched. -/
theorem chapter_cache_invalidation :
    (∀ (st : ChapterState) (newIdx : Nat) (loaded : List (List Char)),
      st.currentChapterIndex = some newIdx →
      chapterTransition st newIdx loaded = st) ∧
    (∀ (st : ChapterState) (j newIdx : Nat) (loaded : List (List Char)),
      st.currentChapterIndex = some j → j ≠ newIdx →
      (chapterTransition st newIdx loaded).chunkAudioCache = [] ∧
      (chapterTransition st newIdx loaded).chapterChunks = loaded ∧
      (chapterTransition st newIdx loaded).currentChapterIndex = some newIdx) := by
  constructor
  · intro st newIdx loaded h
    simp [chapterTransition, h]
  · intro st j newIdx loaded h hj
    simp [chapterTransition, h, hj]

/-- Witness for C7: moving from chapter 2 to chapter 3 clears the cache and
installs the canonical chunks of the new chapter. -/
theorem chapter_cache_invalidation_witness :
    (chapterTransition ⟨some 2, [(0, "u0")], [['x', 'x', 'x', 'x', 'x']], 0⟩ 3
        (chunkChapterText ("One. Two. Three.".toList))).chunkAudioCache = [] ∧
    (chapterTransition ⟨some 2, [(0, "u0")], [['x', 'x', 'x', 'x', 'x']], 0⟩ 3
        (chunkChapterText ("One. Two. Three.".toList))).chapterChunks =
      chunkChapterText ("One. Two. Three.".toList) ∧
    (chapterTransition ⟨some 2, [(0, "u0")], [['x', 'x', 'x', 'x', 'x']], 0⟩ 3
        (chunkChapterText ("One. Two. Three.".toList))).currentChapterIndex = some 3 :=
  chapter_cache_invalidation.2 ⟨some 2, [(0, "u0")], [['x', 'x', 'x', 'x', 'x']], 0⟩ 2 3
    (chunkChapterText ("One. Two. Three.".toList)) rfl (by decide)

/-- C8: on every position save the position, stamped with the save time, is
written to local storage unconditionally, and the local result is identical
whatever the remote write's outcome — a logged-and-swallowed remote failure
can neither prevent nor undo the local write, and `saveReadingPosition` is a
total function (no outcome raises). -/
theorem save_position_local_unconditional (store : List (String × Position))
    (bookId : String) (position : Position) (now : Nat) (authed : Bool)
    (backendId : Option String) (r1 r2 : RemoteSaveOutcome) :
    (saveReadingPosition store bookId position now authed backendId r1).1.lookup bookId =
      some { position with lastRead := some now } ∧
    (saveReadingPosition store bookId position now authed backendId r1).1 =
      (saveReadingPosition store bookId position now authed backendId r2).1 := by
  constructor
  · simp [saveReadingPosition, setPosition, List.lookup]
  · rfl

/-- C9: every extraction run installs a fresh completion signal — the promise
identity after the run differs from the one before — and resolves it on every
exit path (not-ready, no location, unresolved range, empty range, success,
inner and outer errors), so a waiter that captured the old identity and
requires a new, resolved signal is satisfied exactly by the post-state of the
run, whatever its outcome. -/
theorem extraction_signal_fresh_and_resolved (s : ExtractionSignal) (o : ExtOutcome) :
    (extractionSignalRun s o).gen ≠ s.gen ∧
    (extractionSignalRun s o).resolved = true ∧
    waiterProceeds s.gen (extractionSignalRun s o) := by
  cases o <;> simp [extractionSignalRun, waiterProceeds]

/-- C10: the remote position fetch is a total function into `Option`: offline,
unauthenticated, rejected request, non-OK response and unparsable body all
yield `none` rather than an error, and only an OK response with a parsed body
yields a position — so session-start reconciliation can never fail because of
the remote position store. -/
theorem get_position_total :
    (∀ (a : Bool) (f : FetchOutcome), apiGetPosition false a f = none) ∧
    (∀ f : FetchOutcome, apiGetPosition true false f = none) ∧
    apiGetPosition true true FetchOutcome.netError = none ∧
    (∀ j : Option Position, apiGetPosition true true (FetchOutcome.resp false j) = none) ∧
    apiGetPosition true true (FetchOutcome.resp true none) = none ∧
    (∀ p : Position, apiGetPosition true true (FetchOutcome.resp true (some p)) = some p) :=
  ⟨fun _ _ => rfl, fun _ => rfl, rfl, fun _ => rfl, rfl, fun _ => rfl⟩

/-- C1 counterexample: both sources exist, their position fields differ, the
local copy is the more recently modified one — yet when the user answers the
conflict prompt with "Cloud", `getInitialPosition` returns the older remote
position and overwrites local storage with it.  The most recent
last-modified timestamp does not win: the timestamps are only displayed in
the prompt, the user's answer decides. -/
theorem reconcile_latest_wins_refuted :
    positionsDiffer localNewer remoteOlder = true ∧
    remoteOlder.lastRead.getD 0 < localNewer.lastRead.getD 0 ∧
    getInitialPosition (some localNewer) (some remoteOlder) true true true =
      ⟨some remoteOlder, some remoteOlder, some remoteOlder⟩ ∧
    remoteOlder ≠ localNewer := by
  decide

/-- C1 amended: at session start, when both a local and a remote reading
position exist and their position fields differ, the user is prompted and the
position they choose is the reconciled result; the losing store is then
overwritten with the chosen position (the remote overwrite happening when the
client is authenticated and the remote write succeeds), so both sources
converge on the user's choice — not automatically on the more recent
last-modified timestamp. -/
theorem reconcile_user_choice_converges (l r : Position) (cb : Bool)
    (hd : positionsDiffer l r = true) :
    getInitialPosition (some l) (some r) true cb true =
      ⟨some (if cb then r else l), some (if cb then r else l),
       some (if cb then r else l)⟩ := by
  unfold getInitialPosition
  simp only [if_true, Bool.true_and]
  rw [if_neg (by simp [hd])]
  cases cb <;> simp

/-- Witness for the amended C1: the user keeps the local position, and the
remote store is overwritten to match. -/
theorem reconcile_user_choice_converges_witness :
    getInitialPosition (some localNewer) (some remoteOlder) true false true =
      ⟨some localNewer, some localNewer, some localNewer⟩ := by
  have h := reconcile_user_choice_converges localNewer remoteOlder false (by decide)
  simpa using h

/-- Invariant of the greedy sentence-packing loop: provided every already
emitted chunk is well-formed, the running buffer is within the size cap or is
a single trimmed sentence, and every remaining sentence trims into the
allowed set `P`, every chunk the loop ever emits has length at least
`MIN_CHUNK_SIZE` (5) and is either within `MAX_CHUNK_SIZE` (300) or lies in
`P`. -/
theorem packChunks_good (P : List Char → Prop) :
    ∀ (sents chunks : List (List Char)) (cur : List Char),
      (∀ c ∈ chunks, 5 ≤ c.length ∧ (c.length ≤ 300 ∨ P c)) →
      (cur.length ≤ 300 ∨ P cur) →
      (∀ s ∈ sents, P (trimList s)) →
      ∀ c ∈ packChunks sents chunks cur, 5 ≤ c.length ∧ (c.length ≤ 300 ∨ P c) := by
  intro sents
  induction sents with
  | nil =>
    intro chunks cur hchunks hcur _ c hc
    unfold packChunks at hc
    by_cases h5 : 5 ≤ cur.length
    · rw [if_pos h5] at hc
      rcases List.mem_append.mp hc with h | h
      · exact hchunks c h
      · rcases List.mem_singleton.mp h with rfl
        exact ⟨h5, hcur⟩
    · rw [if_neg h5] at hc
      exact hchunks c hc
  | cons s rest ih =>
    intro chunks cur hchunks hcur hsents c hc
    have hs : P (trimList s) := hsents s (List.mem_cons_self s rest)
    have hrest : ∀ u ∈ rest, P (trimList u) :=
      fun u hu => hsents u (List.mem_cons_of_mem s hu)
    unfold packChunks at hc
    by_cases hte : (trimList s).isEmpty
    · rw [if_pos hte] at hc
      exact ih chunks cur hchunks hcur hrest c hc
    · rw [if_neg hte] at hc
      by_cases hflush : 0 < cur.length ∧ 300 < cur.length + (trimList s).length + 1
      · rw [if_pos hflush] at hc
        refine ih _ _ ?_ (Or.inr hs) hrest c hc
        intro d hd
        by_cases h5 : 5 ≤ cur.length
        · rw [if_pos h5] at hd
          rcases List.mem_append.mp hd with h | h
          · exact hchunks d h
          · rcases List.mem_singleton.mp h with rfl
            exact ⟨h5, hcur⟩
        · rw [if_neg h5] at hd
          exact hchunks d hd
      · rw [if_neg hflush] at hc
        by_cases hce : cur.isEmpty
        · rw [if_pos hce] at hc
          exact ih chunks (trimList s) hchunks (Or.inr hs) hrest c hc
        · rw [if_neg hce] at hc
          have hlen : (cur ++ ' ' :: trimList s).length ≤ 300 := by
            have hpos : 0 < cur.length := by
              cases cur with
              | nil => simp at hce
              | cons a l => simp
            have : ¬ 300 < cur.length + (trimList s).length + 1 :=
              fun hgt => hflush ⟨hpos, hgt⟩
            simp only [List.length_append, List.length_cons]
            omega
          exact ih chunks (cur ++ ' ' :: trimList s) hchunks (Or.inl hlen) hrest c hc

/-- C3 counterexample: a chapter whose text is 301 letters with no terminal
punctuation is cut into a single chunk of length 301, violating
`len(text) ≤ MAX_CHUNK_SIZE` (300); the claim's only allowed exception is a
trailing remainder *shorter* than `MIN_CHUNK_SIZE`, which this is not. -/
theorem chunk_size_upper_bound_refuted :
    chunkChapterText (List.replicate 301 'a') = [List.replicate 301 'a'] ∧
    (List.replicate 301 'a').length = 301 := by
  constructor
  · decide
  · decide

/-- C3 amended: every chunk produced by the chapter-level cutter has length at
least `MIN_CHUNK_SIZE` (5) — a final remainder shorter than that is dropped,
not emitted — and has length at most `MAX_CHUNK_SIZE` (300) unless it consists
of a single trimmed sentence of the input, the one case (a sentence longer
than 300) in which an oversized chunk is emitted. -/
theorem chunk_size_invariant_amended (t c : List Char)
    (hc : c ∈ chunkChapterText t) :
    5 ≤ c.length ∧
    (c.length ≤ 300 ∨ ∃ s ∈ splitSentences (normalizeWs t), trimList s = c) := by
  refine packChunks_good
    (fun d => ∃ s ∈ splitSentences (normalizeWs t), trimList s = d)
    (splitSentences (normalizeWs t)) [] [] ?_ ?_ ?_ c hc
  · intro d hd
    simp at hd
  · exact Or.inl (by simp)
  · intro s hs
    exact ⟨s, hs, rfl⟩

/-- Witness for the amended C3 at a concrete chapter text. -/
theorem chunk_size_invariant_amended_witness :
    5 ≤ ("Hello there world.".toList).length ∧
    (("Hello there world.".toList).length ≤ 300 ∨
      ∃ s ∈ splitSentences (normalizeWs ("Hello there world.".toList)),
        trimList s = "Hello there world.".toList) :=
  chunk_size_invariant_amended ("Hello there world.".toList)
    ("Hello there world.".toList) (by decide)

/-- Attempt counts coming out of the retry loop never exceed the starting
count plus the remaining fuel. -/
theorem rangeRetryGo_attempts_le (oracle : Nat → RangeAttempt) :
    ∀ (fuel attempts : Nat) (r : Option PageRange) (n s : Nat),
      rangeRetryGo oracle fuel attempts = .ok (r, n, s) → n ≤ attempts + fuel := by
  intro fuel
  induction fuel with
  | zero =>
    intro attempts r n s h
    simp only [rangeRetryGo, Except.ok.injEq, Prod.mk.injEq] at h
    omega
  | succ fuel ih =>
    intro attempts r n s h
    unfold rangeRetryGo at h
    cases horacle : oracle (attempts + 1) with
    | noLocation =>
      rw [horacle] at h
      cases hrec : rangeRetryGo oracle fuel (attempts + 1) with
      | ok v =>
        obtain ⟨r1, n1, s1⟩ := v
        rw [hrec] at h
        simp only [Except.ok.injEq, Prod.mk.injEq] at h
        have := ih (attempts + 1) r1 n1 s1 hrec
        omega
      | error e =>
        rw [hrec] at h
        simp at h
    | rangeNull =>
      rw [horacle] at h
      cases hrec : rangeRetryGo oracle fuel (attempts + 1) with
      | ok v =>
        obtain ⟨r1, n1, s1⟩ := v
        rw [hrec] at h
        simp only [Except.ok.injEq, Prod.mk.injEq] at h
        have := ih (attempts + 1) r1 n1 s1 hrec
        omega
      | error e =>
        rw [hrec] at h
        simp at h
    | found rg =>
      rw [horacle] at h
      simp only [Except.ok.injEq, Prod.mk.injEq] at h
      omega
    | threw =>
      rw [horacle] at h
      simp at h

/-- When every attempt within the fuel budget fails to resolve a range (stale
location or `null` range), the loop runs the full budget, sleeping once per
attempt, and hands back no range. -/
theorem rangeRetryGo_all_fail (oracle : Nat → RangeAttempt) :
    ∀ (fuel attempts : Nat),
      (∀ k, attempts < k → k ≤ attempts + fuel →
        oracle k = .noLocation ∨ oracle k = .rangeNull) →
      rangeRetryGo oracle fuel attempts = .ok (none, attempts + fuel, fuel) := by
  intro fuel
  induction fuel with
  | zero =>
    intro attempts _
    simp [rangeRetryGo]
  | succ fuel ih =>
    intro attempts h
    have hrec := ih (attempts + 1) (fun k h1 h2 => h k (by omega) (by omega))
    have heq : attempts + 1 + fuel = attempts + (fuel + 1) := by omega
    rcases h (attempts + 1) (by omega) (by omega) with hk | hk <;>
      · unfold rangeRetryGo
        rw [hk, hrec, heq]

/-- When the loop resolves a range, the range is exactly what the fresh
location query of the final attempt resolved to, every earlier attempt failed,
and one sleep was taken per failed attempt. -/
theorem rangeRetryGo_success (oracle : Nat → RangeAttempt) :
    ∀ (fuel attempts : Nat) (rg : PageRange) (n s : Nat),
      rangeRetryGo oracle fuel attempts = .ok (some rg, n, s) →
      oracle n = .found rg ∧ n = attempts + s + 1 ∧
        ∀ k, attempts < k → k < n → oracle k = .noLocation ∨ oracle k = .rangeNull := by
  intro fuel
  induction fuel with
  | zero =>
    intro attempts rg n s h
    simp only [rangeRetryGo, Except.ok.injEq, Prod.mk.injEq] at h
    exact absurd h.1 (by simp)
  | succ fuel ih =>
    intro attempts rg n s h
    unfold rangeRetryGo at h
    cases horacle : oracle (attempts + 1) with
    | noLocation =>
      rw [horacle] at h
      cases hrec : rangeRetryGo oracle fuel (attempts + 1) with
      | ok v =>
        obtain ⟨r1, n1, s1⟩ := v
        rw [hrec] at h
        simp only [Except.ok.injEq, Prod.mk.injEq] at h
        obtain ⟨hr1, hn1, hs1⟩ := h
        subst hr1 hn1
        obtain ⟨hfound, hcount, hearlier⟩ := ih (attempts + 1) rg n1 s1 hrec
        refine ⟨hfound, by omega, ?_⟩
        intro k hk1 hk2
        rcases Nat.lt_or_ge (attempts + 1) k with hgt | hle
        · exact hearlier k hgt hk2
        · have : k = attempts + 1 := by omega
          subst this
          exact Or.inl horacle
      | error e =>
        rw [hrec] at h
        simp at h
    | rangeNull =>
      rw [horacle] at h
      cases hrec : rangeRetryGo oracle fuel (attempts + 1) with
      | ok v =>
        obtain ⟨r1, n1, s1⟩ := v
        rw [hrec] at h
        simp only [Except.ok.injEq, Prod.mk.injEq] at h
        obtain ⟨hr1, hn1, hs1⟩ := h
        subst hr1 hn1
        obtain ⟨hfound, hcount, hearlier⟩ := ih (attempts + 1) rg n1 s1 hrec
        refine ⟨hfound, by omega, ?_⟩
        intro k hk1 hk2
        rcases Nat.lt_or_ge (attempts + 1) k with hgt | hle
        · exact hearlier k hgt hk2
        · have : k = attempts + 1 := by omega
          subst this
          exact Or.inr horacle
      | error e =>
        rw [hrec] at h
        simp at h
    | found rg1 =>
      rw [horacle] at h
      simp only [Except.ok.injEq, Prod.mk.injEq, Option.some.injEq] at h
      obtain ⟨hr, hn, hs⟩ := h
      subst hr hn
      exact ⟨horacle, by omega, fun k hk1 hk2 => absurd hk2 (by omega)⟩
    | threw =>
      rw [horacle] at h
      simp at h

/-- C5: page-text extraction retries range resolution at most 10 times
(`MAX_ATTEMPTS`, one 100 ms sleep per failed attempt), re-querying the
rendering engine's current location fresh on each attempt — a resolved range
always comes from the fresh query of its own attempt, never from the initially
captured descriptor — and if no range resolves after all attempts the
extraction reports an empty paragraph list rather than raising an error. -/
theorem extraction_retry_bounded :
    (∀ (oracle : Nat → RangeAttempt) (r : Option PageRange) (n s : Nat),
      rangeRetryLoop oracle = .ok (r, n, s) → n ≤ 10) ∧
    (∀ oracle : Nat → RangeAttempt,
      (∀ k, 1 ≤ k → k ≤ 10 → oracle k = .noLocation ∨ oracle k = .rangeNull) →
      rangeRetryLoop oracle = .ok (none, 10, 10) ∧ extractParagraphs oracle = []) ∧
    (∀ (oracle : Nat → RangeAttempt) (rg : PageRange) (n s : Nat),
      rangeRetryLoop oracle = .ok (some rg, n, s) →
      oracle n = .found rg ∧ n = s + 1 ∧
        ∀ k, 1 ≤ k → k < n → oracle k = .noLocation ∨ oracle k = .rangeNull) := by
  refine ⟨?_, ?_, ?_⟩
  · intro oracle r n s h
    have := rangeRetryGo_attempts_le oracle 10 0 r n s h
    omega
  · intro oracle h
    have hloop : rangeRetryLoop oracle = .ok (none, 10, 10) :=
      rangeRetryGo_all_fail oracle 10 0 (fun k h1 h2 => h k (by omega) (by omega))
    refine ⟨hloop, ?_⟩
    simp [extractParagraphs, hloop]
  · intro oracle rg n s h
    obtain ⟨hfound, hcount, hearlier⟩ := rangeRetryGo_success oracle 10 0 rg n s h
    exact ⟨hfound, by omega, fun k h1 h2 => hearlier k (by omega) h2⟩

/-- Witness for C5: an oracle whose `getRange` always resolves to `null`
exhausts the 10 attempts and yields the empty paragraph list. -/
theorem extraction_retry_bounded_witness :
    rangeRetryLoop (fun _ => RangeAttempt.rangeNull) = .ok (none, 10, 10) ∧
    extractParagraphs (fun _ => RangeAttempt.rangeNull) = [] :=
  extraction_retry_bounded.2.1 (fun _ => RangeAttempt.rangeNull)
    (fun _ _ _ => Or.inr rfl)

/-- C4: evaluation of `nextParagraph` at the failing input.  With the reported
location never changing (`envStuckTwoParas` always reports location 0, the
playback state's own location) and the unchanged page re-extracting to two
paragraphs, a single call at the end of the page makes one page-advance
attempt, then the retry re-enters `nextParagraph` with the paragraph index
reset to 0, which *speaks the second paragraph again and clears the failure
counter*, returning playback to exactly the starting state.  Iterating the
narration loop therefore makes 12 page-advance attempts — past both the
claimed 3-attempt stop and the claimed 10-failure stop — without ever pausing:
narration loops indefinitely, re-reading the stuck page.  The 10-failure guard
is unreachable (the counter is capped at 3 and reset by every spoken
paragraph), contradicting the code's own "stopping to prevent infinite loop"
message. -/
theorem page_advance_loop_evaluated :
    nextParagraphCall envStuckTwoParas 0 stStuckTwoParas =
      (NPAction.speakNext ['b', 'b', 'b', 'b', 'b'], stStuckTwoParas, 1) ∧
    narrationRun envStuckTwoParas 12 0 stStuckTwoParas = (none, stStuckTwoParas, 12) := by
  constructor
  · decide
  · decide

end ReadAloud
